import Mathlib

/-!
# Verification of `log-to-gor`

A shallow embedding of `src/log-to-gor.go`, a converter from Apache
Combined Log Format access-log lines to the goreplay (`.gor`) payload
format, together with proofs of the specified properties of its core
`processLogs` routine.

The Go program's effectful capabilities are modelled explicitly:

* the input stream is the list of lines produced by the line scanner,
  plus an optional scanner error reported after the loop;
* the third-party access-log parser (an external library, its sources
  are not part of this repository) is modelled as an abstract
  acceptance predicate `Env.parserOk`, since `processLogs` only
  observes whether it accepted the line;
* the cryptographically secure random source is a stream
  `Env.randRead` giving, for the k-th call, either the 12 bytes read
  or a read failure;
* the output stream is modelled by a schedule `Env.writeOk` saying
  whether the n-th write call succeeds, and the list of successfully
  written strings.

The two regular expressions of the Go source are embedded as explicit
scanning functions over `List Char` (Go's regexp semantics is
leftmost-earliest start; at a fixed start position both patterns are
deterministic, since the greedy character classes are each followed by
a literal the class excludes).
-/

namespace LogToGor

/-- The delimiter used by goreplay to separate payloads
(constant `gorPayloadDelimiter` of the Go source). -/
def gorPayloadDelimiter : String := "🐵🙈🙉"

/-- The alternation of methods in the request-line regex
`"(GET|POST|PUT|DELETE|HEAD|OPTIONS|PATCH) ([^ ]+) ([^\"]+)"`. -/
def httpMethods : List String :=
  ["GET", "POST", "PUT", "DELETE", "HEAD", "OPTIONS", "PATCH"]

/-- `leadsWith pat cs` is true when `pat` is an initial segment of `cs`
(character-literal matching, as the regex engine does). -/
def leadsWith : List Char → List Char → Bool
  | [], _ => true
  | _ :: _, [] => false
  | p :: ps, c :: cs => p == c && leadsWith ps cs

/-- One attempt of the request-line regex
`"(GET|POST|PUT|DELETE|HEAD|OPTIONS|PATCH) ([^ ]+) ([^\"]+)"` anchored at
the start of `cs`: an opening quote, a method from the alternation, a
space, a nonempty maximal run of non-space characters (the path), a
space, a nonempty maximal run of non-quote characters (the protocol),
and a closing quote.  Greedy `[^ ]+` and `[^\"]+` each abut a literal
their class excludes, so the backtracking search is deterministic. -/
def matchReqAt (cs : List Char) : Option (String × String × String) :=
  match cs with
  | [] => none
  | c :: r0 =>
    if c = '"' then
      match httpMethods.find? (fun m => leadsWith (m.data ++ [' ']) r0) with
      | none => none
      | some m =>
        let r1 := r0.drop (m.data.length + 1)
        let p := r1.takeWhile (fun d => d != ' ')
        match r1.dropWhile (fun d => d != ' ') with
        | [] => none
        | sp :: r3 =>
          if p = [] ∨ sp ≠ ' ' then none
          else
            let pr := r3.takeWhile (fun d => d != '"')
            match r3.dropWhile (fun d => d != '"') with
            | [] => none
            | q :: _ =>
              if pr = [] ∨ q ≠ '"' then none
              else some (m, ⟨p⟩, ⟨pr⟩)
    else none

/-- `FindStringSubmatch` for the request-line regex: the match whose
start position is leftmost wins. -/
def findReqMatch : List Char → Option (String × String × String)
  | [] => none
  | c :: rest =>
    match matchReqAt (c :: rest) with
    | some r => some r
    | none => findReqMatch rest

/-- ASCII decimal digit, the regex class `\d`. -/
def isDigitCh (c : Char) : Bool := '0' ≤ c && c ≤ '9'

/-- The regex class `\w` (`[0-9A-Za-z_]`, ASCII in Go's regexp). -/
def isWordCh (c : Char) : Bool :=
  isDigitCh c || ('a' ≤ c && c ≤ 'z') || ('A' ≤ c && c ≤ 'Z') || c = '_'

/-- One attempt of the timestamp regex
`\[(\d{2}/\w{3}/\d{4}:\d{2}:\d{2}:\d{2}) [^\]]+\]` anchored at the start
of the character list; on success it returns the capture group (the
20-character date-time part). -/
def matchTimeAt : List Char → Option String
  | '[' :: d1 :: d2 :: c1 :: w1 :: w2 :: w3 :: c2 :: y1 :: y2 :: y3 :: y4 ::
      c3 :: h1 :: h2 :: c4 :: mi1 :: mi2 :: c5 :: s1 :: s2 :: sp :: rest =>
    if c1 = '/' ∧ c2 = '/' ∧ c3 = ':' ∧ c4 = ':' ∧ c5 = ':' ∧ sp = ' ' ∧
        (isDigitCh d1 && isDigitCh d2 && isWordCh w1 && isWordCh w2 && isWordCh w3 &&
         isDigitCh y1 && isDigitCh y2 && isDigitCh y3 && isDigitCh y4 &&
         isDigitCh h1 && isDigitCh h2 && isDigitCh mi1 && isDigitCh mi2 &&
         isDigitCh s1 && isDigitCh s2) = true then
      match rest.takeWhile (fun d => d != ']'), rest.dropWhile (fun d => d != ']') with
      | [], _ => none
      | _ :: _, [] => none
      | _ :: _, b :: _ =>
        if b = ']' then
          some ⟨[d1, d2, '/', w1, w2, w3, '/', y1, y2, y3, y4, ':',
                 h1, h2, ':', mi1, mi2, ':', s1, s2]⟩
        else none
    else none
  | _ => none

/-- `FindStringSubmatch` for the timestamp regex: leftmost match. -/
def findTimeMatch : List Char → Option String
  | [] => none
  | c :: rest =>
    match matchTimeAt (c :: rest) with
    | some s => some s
    | none => findTimeMatch rest

/-- Numeric value of an ASCII digit. -/
def digitVal (c : Char) : Nat := c.toNat - 48

/-- Month-name lookup of Go's `time.Parse` for the `Jan` layout token:
ASCII-case-insensitive comparison against the three-letter month
abbreviations. -/
def monthNum (w : String) : Option Nat :=
  let lw : List Char := w.data.map Char.toLower
  if lw = "jan".data then some 1
  else if lw = "feb".data then some 2
  else if lw = "mar".data then some 3
  else if lw = "apr".data then some 4
  else if lw = "may".data then some 5
  else if lw = "jun".data then some 6
  else if lw = "jul".data then some 7
  else if lw = "aug".data then some 8
  else if lw = "sep".data then some 9
  else if lw = "oct".data then some 10
  else if lw = "nov".data then some 11
  else if lw = "dec".data then some 12
  else none

/-- Gregorian leap-year rule, as `isLeap` in Go's `time` package. -/
def isLeapYear (y : Nat) : Bool := y % 4 = 0 && (y % 100 ≠ 0 || y % 400 = 0)

/-- Number of days of a month, as `daysIn` in Go's `time` package. -/
def daysInMonth (mo y : Nat) : Nat :=
  if mo = 2 then (if isLeapYear y then 29 else 28)
  else if mo = 4 ∨ mo = 6 ∨ mo = 9 ∨ mo = 11 then 30 else 31

/-- Days from 1970-01-01 to the given proleptic-Gregorian civil date
(the day-number arithmetic underlying Go's `time.Date`). -/
def daysFromCivil (y mo d : Nat) : Int :=
  let yi : Int := if mo ≤ 2 then (y : Int) - 1 else (y : Int)
  let era : Int := (if 0 ≤ yi then yi else yi - 399) / 400
  let yoe : Int := yi - era * 400
  let mp : Int := ((mo : Int) + 9) % 12
  let doy : Int := (153 * mp + 2) / 5 + (d : Int) - 1
  let doe : Int := yoe * 365 + yoe / 4 - yoe / 100 + doy
  era * 146097 + doe - 719468

/-- Two's-complement wrap-around of an integer to `int64`, the type of
the Go timestamp (`t.UnixNano()` is defined modulo 2^64). -/
def int64ofInt (x : Int) : Int :=
  (x + 9223372036854775808) % 18446744073709551616 - 9223372036854775808

/-- `time.Parse("02/Jan/2006:15:04:05", s).UnixNano()` of the Go source:
parse the capture of the timestamp regex as a naive (UTC-interpreted)
date-time, validate the field ranges as Go's parser does, and convert to
epoch nanoseconds; `none` is a parse error (`err != nil` in Go). -/
def parseApacheTime (s : String) : Option Int :=
  match s.data with
  | [d1, d2, '/', w1, w2, w3, '/', y1, y2, y3, y4, ':',
     h1, h2, ':', mi1, mi2, ':', s1, s2] =>
    if (isDigitCh d1 && isDigitCh d2 && isDigitCh y1 && isDigitCh y2 &&
        isDigitCh y3 && isDigitCh y4 && isDigitCh h1 && isDigitCh h2 &&
        isDigitCh mi1 && isDigitCh mi2 && isDigitCh s1 && isDigitCh s2) = true then
      match monthNum ⟨[w1, w2, w3]⟩ with
      | none => none
      | some mo =>
        let d := digitVal d1 * 10 + digitVal d2
        let y := digitVal y1 * 1000 + digitVal y2 * 100 + digitVal y3 * 10 + digitVal y4
        let hh := digitVal h1 * 10 + digitVal h2
        let mm := digitVal mi1 * 10 + digitVal mi2
        let ss := digitVal s1 * 10 + digitVal s2
        if 1 ≤ d ∧ d ≤ daysInMonth mo y ∧ hh ≤ 23 ∧ mm ≤ 59 ∧ ss ≤ 59 then
          some (int64ofInt ((daysFromCivil y mo d * 86400 +
            (hh : Int) * 3600 + (mm : Int) * 60 + (ss : Int)) * 1000000000))
        else none
    else none
  | _ => none

/-- The timestamp of a line, lines 96–103 of the Go source: apply the
timestamp regex and Go's `time.Parse`; on no match or parse error the
`timestamp` variable keeps its zero value. -/
def extractTimestamp (line : String) : Int :=
  match findTimeMatch line.data with
  | none => 0
  | some cap =>
    match parseApacheTime cap with
    | none => 0
    | some ns => ns

/-- The 16 lowercase hex digits, `hextable` of Go's `encoding/hex`. -/
def hexTable : List Char := "0123456789abcdef".data

/-- Hex digit of a nibble value. -/
def hexDigitChar (n : Nat) : Char := hexTable.getD n '0'

/-- `hex.EncodeToString` on a byte list: each byte `b` becomes
`hextable[b>>4]` then `hextable[b&0x0f]` (bytes are values mod 256). -/
def hexBytesAux : List Nat → List Char
  | [] => []
  | b :: bs => hexDigitChar (b % 256 / 16) :: hexDigitChar (b % 16) :: hexBytesAux bs

/-- `hex.EncodeToString` of the Go source, producing a string. -/
def hexEncodeBytes (bs : List Nat) : String := ⟨hexBytesAux bs⟩

/-- `generateRequestID` of the Go source, over the outcome of the
`rand.Read` call that fills its 12-byte buffer: on a read failure the
error is propagated (`none`), otherwise the bytes are hex-encoded. -/
def generateRequestID (randRead : Option (List Nat)) : Option String :=
  match randRead with
  | none => none
  | some bs => some (hexEncodeBytes bs)

/-- The effectful capabilities `processLogs` uses, injected explicitly:
the third-party access-log parser (observed only as an acceptance
predicate on the line), the secure random source (outcome of the k-th
12-byte read), and the output stream (whether the n-th write call
succeeds). -/
structure Env where
  parserOk : String → Bool
  randRead : Nat → Option (List Nat)
  writeOk : Nat → Bool

/-- The errors `processLogs` can return: one per failing output
segment (lines 115, 119, 123 of the Go source), or the scanner error
wrapped at line 128. -/
inductive PErr
  | headerWrite
  | requestWrite
  | delimiterWrite
  | readErr (msg : String)
deriving DecidableEq

/-- The running state of the `processLogs` loop: the success counter,
the successfully written output strings in order, and how many random
reads and write calls were consumed so far. -/
structure PState where
  count : Nat
  out : List String
  rngUsed : Nat
  writesTried : Nat
deriving DecidableEq

/-- The header segment: `fmt.Fprintf(w, "%s %s %d %d\n", "1", reqID,
timestamp, 0)`. -/
def headerLine (reqID : String) (timestamp : Int) : String :=
  "1 " ++ reqID ++ " " ++ toString timestamp ++ " 0\n"

/-- The request-line segment: `fmt.Fprintf(w, "%s\r\n\r\n\n", requestLine)`. -/
def requestSeg (requestLine : String) : String := requestLine ++ "\r\n\r\n\n"

/-- The delimiter segment: `fmt.Fprintf(w, "%s\n", gorPayloadDelimiter)`. -/
def delimSeg : String := gorPayloadDelimiter ++ "\n"

/-- The body of the `for scanner.Scan()` loop of `processLogs` for one
line: skip empty lines, skip lines the library parser rejects, extract
the request line (skipping on no match), extract the timestamp (zero on
failure), generate the request identifier (skipping on failure), then
perform the three writes, aborting with the corresponding error when
one fails, and count the line once its whole record is written.  The
second component is `some e` when the function returns early with
error `e`. -/
def processLine (env : Env) (st : PState) (line : String) : PState × Option PErr :=
  if line = "" then (st, none)
  else if env.parserOk line then
    match findReqMatch line.data with
    | none => (st, none)
    | some (m, p, pr) =>
      let requestLine := m ++ " " ++ p ++ " " ++ pr
      let timestamp := extractTimestamp line
      match generateRequestID (env.randRead st.rngUsed) with
      | none => ({ st with rngUsed := st.rngUsed + 1 }, none)
      | some reqID =>
        let st1 : PState := { st with rngUsed := st.rngUsed + 1 }
        if env.writeOk st1.writesTried then
          let st2 : PState := { st1 with
            out := st1.out ++ [headerLine reqID timestamp],
            writesTried := st1.writesTried + 1 }
          if env.writeOk st2.writesTried then
            let st3 : PState := { st2 with
              out := st2.out ++ [requestSeg requestLine],
              writesTried := st2.writesTried + 1 }
            if env.writeOk st3.writesTried then
              ({ st3 with
                  out := st3.out ++ [delimSeg],
                  writesTried := st3.writesTried + 1,
                  count := st3.count + 1 }, none)
            else ({ st3 with writesTried := st3.writesTried + 1 }, some .delimiterWrite)
          else ({ st2 with writesTried := st2.writesTried + 1 }, some .requestWrite)
        else ({ st1 with writesTried := st1.writesTried + 1 }, some .headerWrite)
  else (st, none)

/-- The scan loop of `processLogs` over the lines the scanner yields,
stopping at the first early return. -/
def runLines (env : Env) : PState → List String → PState × Option PErr
  | st, [] => (st, none)
  | st, l :: ls =>
    match processLine env st l with
    | (st', none) => runLines env st' ls
    | (st', some e) => (st', some e)

/-- The observable result of `processLogs`: the returned count, the
returned error, and the strings successfully written to the output. -/
structure ProcResult where
  count : Nat
  err : Option PErr
  out : List String
deriving DecidableEq

/-- The initial loop state (`processedCount := 0`, nothing written). -/
def initState : PState := ⟨0, [], 0, 0⟩

/-- `processLogs` of the Go source: run the loop over the scanned
lines; on an early return propagate that error, otherwise report the
scanner's error if it has one (wrapped, line 128), else return the
final count with no error. -/
def processLogs (env : Env) (lines : List String) (scanErr : Option String) : ProcResult :=
  match runLines env initState lines with
  | (st, some e) => ⟨st.count, some e, st.out⟩
  | (st, none) =>
    match scanErr with
    | some msg => ⟨st.count, some (.readErr msg), st.out⟩
    | none => ⟨st.count, none, st.out⟩

/-! ## Helper lemmas about the loop body -/

/-- A line that is empty, rejected by the library parser, or without a
request-line match is skipped with the state unchanged. -/
lemma processLine_skip (env : Env) (st : PState) (l : String)
    (h : l = "" ∨ env.parserOk l = false ∨ findReqMatch l.data = none) :
    processLine env st l = (st, none) := by
  unfold processLine
  rcases h with h | h | h
  · simp [h]
  · by_cases he : l = ""
    · simp [he]
    · simp [he, h]
  · by_cases he : l = ""
    · simp [he]
    · simp [he, h]

/-- A line that passes parsing and extraction but whose random read
fails is skipped, consuming one random read. -/
lemma processLine_rng_fail (env : Env) (st : PState) (l : String)
    (m p pr : String)
    (hne : l ≠ "") (hp : env.parserOk l = true)
    (hfind : findReqMatch l.data = some (m, p, pr))
    (hr : env.randRead st.rngUsed = none) :
    processLine env st l = ({ st with rngUsed := st.rngUsed + 1 }, none) := by
  unfold processLine
  simp [hne, hp, hfind, hr, generateRequestID]

/-- A line that passes all stages, with its three writes succeeding,
appends exactly its three-segment record and counts once. -/
lemma processLine_convert (env : Env) (st : PState) (l : String)
    (m p pr : String) (bs : List Nat)
    (hne : l ≠ "") (hp : env.parserOk l = true)
    (hfind : findReqMatch l.data = some (m, p, pr))
    (hr : env.randRead st.rngUsed = some bs)
    (hw1 : env.writeOk st.writesTried = true)
    (hw2 : env.writeOk (st.writesTried + 1) = true)
    (hw3 : env.writeOk (st.writesTried + 2) = true) :
    processLine env st l =
      ({ st with
         count := st.count + 1,
         out := st.out ++ [headerLine (hexEncodeBytes bs) (extractTimestamp l),
                 requestSeg (m ++ " " ++ p ++ " " ++ pr), delimSeg],
         rngUsed := st.rngUsed + 1, writesTried := st.writesTried + 3 }, none) := by
  unfold processLine
  simp [hne, hp, hfind, hr, generateRequestID, hw1, hw2, hw3]

/-- A line that passes parsing and extraction and whose header write
fails aborts with the header error. -/
lemma processLine_header_fail (env : Env) (st : PState) (l : String)
    (m p pr : String) (bs : List Nat)
    (hne : l ≠ "") (hp : env.parserOk l = true)
    (hfind : findReqMatch l.data = some (m, p, pr))
    (hr : env.randRead st.rngUsed = some bs)
    (hw1 : env.writeOk st.writesTried = false) :
    processLine env st l =
      ({ st with
         rngUsed := st.rngUsed + 1, writesTried := st.writesTried + 1 },
       some PErr.headerWrite) := by
  unfold processLine
  simp [hne, hp, hfind, hr, generateRequestID, hw1]

/-- A line whose header write succeeds but whose request-line write
fails aborts with the request-line error; the count is unchanged. -/
lemma processLine_request_fail (env : Env) (st : PState) (l : String)
    (m p pr : String) (bs : List Nat)
    (hne : l ≠ "") (hp : env.parserOk l = true)
    (hfind : findReqMatch l.data = some (m, p, pr))
    (hr : env.randRead st.rngUsed = some bs)
    (hw1 : env.writeOk st.writesTried = true)
    (hw2 : env.writeOk (st.writesTried + 1) = false) :
    processLine env st l =
      ({ st with
         out := st.out ++ [headerLine (hexEncodeBytes bs) (extractTimestamp l)],
         rngUsed := st.rngUsed + 1, writesTried := st.writesTried + 2 },
       some PErr.requestWrite) := by
  unfold processLine
  simp [hne, hp, hfind, hr, generateRequestID, hw1, hw2]

/-- A line whose first two writes succeed but whose delimiter write
fails aborts with the delimiter error; the count is unchanged. -/
lemma processLine_delim_fail (env : Env) (st : PState) (l : String)
    (m p pr : String) (bs : List Nat)
    (hne : l ≠ "") (hp : env.parserOk l = true)
    (hfind : findReqMatch l.data = some (m, p, pr))
    (hr : env.randRead st.rngUsed = some bs)
    (hw1 : env.writeOk st.writesTried = true)
    (hw2 : env.writeOk (st.writesTried + 1) = true)
    (hw3 : env.writeOk (st.writesTried + 2) = false) :
    processLine env st l =
      ({ st with
         out := st.out ++ [headerLine (hexEncodeBytes bs) (extractTimestamp l),
                 requestSeg (m ++ " " ++ p ++ " " ++ pr)],
         rngUsed := st.rngUsed + 1, writesTried := st.writesTried + 3 },
       some PErr.delimiterWrite) := by
  unfold processLine
  simp [hne, hp, hfind, hr, generateRequestID, hw1, hw2, hw3]

/-- If every write succeeds, the loop body never returns early. -/
lemma processLine_no_err (env : Env) (st : PState) (l : String)
    (hW : ∀ n, env.writeOk n = true) :
    (processLine env st l).2 = none := by
  unfold processLine
  simp only [hW]
  split
  · rfl
  · split
    · split
      · rfl
      · split
        · rfl
        · rfl
    · rfl

/-- If every write succeeds, the whole loop never returns early. -/
lemma runLines_no_err (env : Env) (hW : ∀ n, env.writeOk n = true) :
    ∀ (lines : List String) (st : PState), (runLines env st lines).2 = none := by
  intro lines
  induction lines with
  | nil => intro st; rfl
  | cons l ls ih =>
    intro st
    have h := processLine_no_err env st l hW
    unfold runLines
    rcases hpl : processLine env st l with ⟨st', e⟩
    rw [hpl] at h
    simp at h
    subst h
    exact ih st'

/-! ## Helper lemmas about the request identifier -/

lemma hexBytesAux_length (bs : List Nat) :
    (hexBytesAux bs).length = 2 * bs.length := by
  induction bs with
  | nil => rfl
  | cons b bs ih => simp [hexBytesAux, ih]; omega

lemma hexDigitChar_mem_of_lt {n : Nat} (h : n < 16) : hexDigitChar n ∈ hexTable := by
  revert h
  have : ∀ n < 16, hexDigitChar n ∈ hexTable := by decide
  exact this n

lemma hexBytesAux_mem {bs : List Nat} (hb : ∀ b ∈ bs, b < 256) :
    ∀ c ∈ hexBytesAux bs, c ∈ hexTable := by
  induction bs with
  | nil => intro c hc; simp [hexBytesAux] at hc
  | cons b bs ih =>
    intro c hc
    have hblt : b % 256 < 256 := Nat.mod_lt _ (by omega)
    have h1 : b % 256 / 16 < 16 := Nat.div_lt_of_lt_mul (by omega)
    have h2 : b % 16 < 16 := Nat.mod_lt _ (by omega)
    simp only [hexBytesAux, List.mem_cons] at hc
    rcases hc with hc | hc | hc
    · subst hc; exact hexDigitChar_mem_of_lt h1
    · subst hc; exact hexDigitChar_mem_of_lt h2
    · exact ih (fun x hx => hb x (List.mem_cons_of_mem b hx)) c hc

/-! ## The counter counts exactly the complete records -/

lemma headerLine_ne_delim (id : String) (ts : Int) : headerLine id ts ≠ delimSeg := by
  intro h
  have h0 : ((headerLine id ts).data).head? = (delimSeg.data).head? := by rw [h]
  have h1 : ((headerLine id ts).data).head? = some '1' := by
    show (("1 " ++ id ++ " " ++ toString ts ++ " 0\n").data).head? = some '1'
    rw [String.data_append, String.data_append, String.data_append, String.data_append]
    rw [show "1 ".data = ['1', ' '] from by decide]
    rfl
  rw [h1, show (delimSeg.data).head? = some '🐵' from by decide] at h0
  exact absurd (Option.some.inj h0) (by decide)

lemma requestSeg_ne_delim (rl : String) : requestSeg rl ≠ delimSeg := by
  intro h
  have hlen : ((requestSeg rl).data).length = (delimSeg.data).length := by rw [h]
  rw [show (requestSeg rl).data = rl.data ++ "\r\n\r\n\n".data from String.data_append rl _,
      List.length_append,
      show ("\r\n\r\n\n" : String).data.length = 5 from by decide,
      show (delimSeg.data).length = 4 from by decide] at hlen
  omega

/-- Whatever the line does, the counter stays equal to the number of
delimiter strings among the successful writes: a counted line wrote its
whole record, an aborted line wrote no delimiter. -/
lemma processLine_delim_inv (env : Env) (st : PState) (l : String)
    (h : st.count = st.out.countP (fun s => s == delimSeg)) :
    (processLine env st l).1.count =
      ((processLine env st l).1.out).countP (fun s => s == delimSeg) := by
  have ehd : ∀ (id : String) (ts : Int), (headerLine id ts == delimSeg) = false :=
    fun id ts => beq_eq_false_iff_ne.mpr (headerLine_ne_delim id ts)
  have erq : ∀ rl : String, (requestSeg rl == delimSeg) = false :=
    fun rl => beq_eq_false_iff_ne.mpr (requestSeg_ne_delim rl)
  have edl : (delimSeg == delimSeg) = true := beq_self_eq_true delimSeg
  by_cases hne : l = ""
  · rw [processLine_skip env st l (Or.inl hne)]; exact h
  by_cases hp : env.parserOk l = true
  case neg =>
    rw [processLine_skip env st l (Or.inr (Or.inl (by simpa using hp)))]; exact h
  rcases hfind : findReqMatch l.data with _ | ⟨m, p, pr⟩
  · rw [processLine_skip env st l (Or.inr (Or.inr hfind))]; exact h
  rcases hr : env.randRead st.rngUsed with _ | bs
  · rw [processLine_rng_fail env st l m p pr hne hp hfind hr]; exact h
  by_cases hw1 : env.writeOk st.writesTried = true
  case neg =>
    rw [processLine_header_fail env st l m p pr bs hne hp hfind hr (by simpa using hw1)]
    exact h
  by_cases hw2 : env.writeOk (st.writesTried + 1) = true
  case neg =>
    rw [processLine_request_fail env st l m p pr bs hne hp hfind hr hw1 (by simpa using hw2)]
    simp [List.countP_append, List.countP_cons, ehd]
    exact h
  by_cases hw3 : env.writeOk (st.writesTried + 2) = true
  case neg =>
    rw [processLine_delim_fail env st l m p pr bs hne hp hfind hr hw1 hw2 (by simpa using hw3)]
    simp [List.countP_append, List.countP_cons, ehd, erq]
    exact h
  rw [processLine_convert env st l m p pr bs hne hp hfind hr hw1 hw2 hw3]
  simp [List.countP_append, List.countP_cons, ehd, erq, edl]
  omega

/-- The counter-equals-delimiters invariant is preserved by the whole
loop, whether it ends cleanly or aborts. -/
lemma runLines_delim_inv (env : Env) :
    ∀ (lines : List String) (st : PState),
      st.count = st.out.countP (fun s => s == delimSeg) →
      (runLines env st lines).1.count =
        ((runLines env st lines).1.out).countP (fun s => s == delimSeg) := by
  intro lines
  induction lines with
  | nil => intro st h; exact h
  | cons l ls ih =>
    intro st h
    have hstep := processLine_delim_inv env st l h
    unfold runLines
    rcases hpl : processLine env st l with ⟨st', e⟩
    rw [hpl] at hstep
    cases e with
    | none => exact ih st' hstep
    | some e => exact hstep

/-- Unfolding equation of `runLines` at a non-empty line list. -/
lemma runLines_cons (env : Env) (st : PState) (l : String) (ls : List String) :
    runLines env st (l :: ls) =
      match processLine env st l with
      | (st', none) => runLines env st' ls
      | (st', some e) => (st', some e) := rfl

/-- A line kept by the witnesses below: its quoted request line matches
but its bracketed timestamp has a one-digit day, so the timestamp regex
(which requires two digits) does not match. -/
def badTsLine : String :=
  "127.0.0.1 - - [1/Oct/2025:12:30:11 +0000] \"GET /api HTTP/1.1\" 200 5"

/-! ## The claims -/

/-- C4: an input line that is empty, or lacks a quoted
`METHOD PATH PROTOCOL` substring with a known method (no match of the
request-line regex), produces no record, leaves the count unchanged,
and produces no error: the loop simply continues with the rest. -/
theorem c4_unmatched_line_skipped (env : Env) (st : PState) (l : String)
    (h : l = "" ∨ findReqMatch l.data = none) :
    processLine env st l = (st, none) ∧
    ∀ ls : List String, runLines env st (l :: ls) = runLines env st ls := by
  have hskip : processLine env st l = (st, none) :=
    processLine_skip env st l (h.imp id Or.inr)
  refine ⟨hskip, fun ls => ?_⟩
  rw [runLines_cons, hskip]

/-- Witness for C4 at the empty line. -/
theorem c4_unmatched_line_skipped_witness :
    processLine ⟨fun _ => true, fun _ => none, fun _ => true⟩ initState "" =
      (initState, none) :=
  (c4_unmatched_line_skipped ⟨fun _ => true, fun _ => none, fun _ => true⟩
    initState "" (Or.inl rfl)).1

/-- C7: a successful request identifier is the hex encoding of the 12
random bytes — 24 characters, all lowercase hex digits — and a failure
of the random source makes the line be skipped (state unchanged except
for the consumed random read): not counted, no record, no error. -/
theorem c7_request_id_hex (env : Env) (st : PState) (l : String) :
    (∀ bs : List Nat, bs.length = 12 → (∀ b ∈ bs, b < 256) →
      ∀ s, generateRequestID (some bs) = some s →
        s.length = 24 ∧ ∀ c ∈ s.data, c ∈ hexTable) ∧
    (∀ m p pr : String, l ≠ "" → env.parserOk l = true →
      findReqMatch l.data = some (m, p, pr) →
      env.randRead st.rngUsed = none →
      processLine env st l = ({ st with rngUsed := st.rngUsed + 1 }, none)) := by
  constructor
  · intro bs h12 h256 s hs
    have hseq : hexEncodeBytes bs = s := by
      simpa [generateRequestID] using hs
    subst hseq
    refine ⟨?_, hexBytesAux_mem h256⟩
    show (hexBytesAux bs).length = 24
    rw [hexBytesAux_length, h12]
  · intro m p pr hne hp hfind hr
    exact processLine_rng_fail env st l m p pr hne hp hfind hr

/-- Witness for C7: 12 zero bytes hex-encode to 24 hex characters, and
a failing random source skips the witness line. -/
theorem c7_request_id_hex_witness :
    ((hexEncodeBytes (List.replicate 12 0)).length = 24 ∧
      ∀ c ∈ (hexEncodeBytes (List.replicate 12 0)).data, c ∈ hexTable) ∧
    processLine ⟨fun _ => true, fun _ => none, fun _ => true⟩ initState badTsLine =
      ({ initState with rngUsed := initState.rngUsed + 1 }, none) := by
  constructor
  · exact (c7_request_id_hex ⟨fun _ => true, fun _ => none, fun _ => true⟩
      initState badTsLine).1 (List.replicate 12 0) (by decide) (by decide) _ rfl
  · exact (c7_request_id_hex ⟨fun _ => true, fun _ => none, fun _ => true⟩
      initState badTsLine).2 "GET" "/api" "HTTP/1.1" (by decide) rfl (by decide) rfl

/-- C6: with no write failure, the error `processLogs` returns is
exactly the scanner's error (wrapped), together with the count
accumulated by the loop — in particular clean exhaustion returns no
error, and malformed lines never produce a returned error. -/
theorem c6_scanner_error_propagated (env : Env) (lines : List String)
    (scanErr : Option String) (hW : ∀ n, env.writeOk n = true) :
    (processLogs env lines scanErr).err = scanErr.map PErr.readErr ∧
    (processLogs env lines scanErr).count = (runLines env initState lines).1.count := by
  have h := runLines_no_err env hW lines initState
  unfold processLogs
  rcases hr : runLines env initState lines with ⟨st, e⟩
  rw [hr] at h
  simp at h
  subst h
  cases scanErr <;> simp

/-- Witness for C6: a malformed line plus a scanner error yields
exactly the wrapped scanner error. -/
theorem c6_scanner_error_propagated_witness :
    (processLogs ⟨fun _ => true, fun _ => some (List.replicate 12 0), fun _ => true⟩
        ["not a log line"] (some "boom")).err = some (PErr.readErr "boom") :=
  ((c6_scanner_error_propagated
    ⟨fun _ => true, fun _ => some (List.replicate 12 0), fun _ => true⟩
    ["not a log line"] (some "boom") (fun _ => rfl)).1).trans rfl

/-- C3: a non-empty line accepted by the parser whose request line
matches is still converted when the timestamp regex fails to match or
its capture fails to parse: the record is emitted with timestamp zero
and the count is incremented — whereas a request-line match failure
skips the line entirely. -/
theorem c3_timestamp_failure_not_fatal (env : Env) (st : PState) (l : String)
    (m p pr : String) (bs : List Nat)
    (hne : l ≠ "") (hp : env.parserOk l = true)
    (hfind : findReqMatch l.data = some (m, p, pr))
    (hts : findTimeMatch l.data = none ∨
      ∃ cap, findTimeMatch l.data = some cap ∧ parseApacheTime cap = none)
    (hr : env.randRead st.rngUsed = some bs)
    (hw1 : env.writeOk st.writesTried = true)
    (hw2 : env.writeOk (st.writesTried + 1) = true)
    (hw3 : env.writeOk (st.writesTried + 2) = true) :
    processLine env st l =
      ({ st with
         count := st.count + 1,
         out := st.out ++ [headerLine (hexEncodeBytes bs) 0,
                 requestSeg (m ++ " " ++ p ++ " " ++ pr), delimSeg],
         rngUsed := st.rngUsed + 1, writesTried := st.writesTried + 3 }, none) ∧
    ∀ l' : String, findReqMatch l'.data = none → processLine env st l' = (st, none) := by
  have hz : extractTimestamp l = 0 := by
    unfold extractTimestamp
    rcases hts with h | ⟨cap, h1, h2⟩
    · rw [h]
    · simp [h1, h2]
  constructor
  · have hc := processLine_convert env st l m p pr bs hne hp hfind hr hw1 hw2 hw3
    rw [hz] at hc
    exact hc
  · intro l' h'
    exact processLine_skip env st l' (Or.inr (Or.inr h'))

/-- Witness for C3: the one-digit-day line is converted with timestamp
zero. -/
theorem c3_timestamp_failure_not_fatal_witness :
    processLine ⟨fun _ => true, fun _ => some (List.replicate 12 0), fun _ => true⟩
        initState badTsLine =
      ({ initState with
         count := initState.count + 1,
         out := initState.out ++ [headerLine (hexEncodeBytes (List.replicate 12 0)) 0,
                 requestSeg ("GET" ++ " " ++ "/api" ++ " " ++ "HTTP/1.1"), delimSeg],
         rngUsed := initState.rngUsed + 1,
         writesTried := initState.writesTried + 3 }, none) :=
  (c3_timestamp_failure_not_fatal
    ⟨fun _ => true, fun _ => some (List.replicate 12 0), fun _ => true⟩
    initState badTsLine "GET" "/api" "HTTP/1.1" (List.replicate 12 0)
    (by decide) rfl (by decide) (Or.inl (by decide)) rfl rfl rfl rfl).1

/-- C5: when one of the three writes of a line's record fails, the loop
aborts at once — the remaining lines are not processed — returning the
count of records fully written so far (the counter is untouched by the
partial record) and the error naming the failing segment. -/
theorem c5_write_failure_aborts (env : Env) (st : PState) (l : String) (ls : List String)
    (m p pr : String) (bs : List Nat)
    (hne : l ≠ "") (hp : env.parserOk l = true)
    (hfind : findReqMatch l.data = some (m, p, pr))
    (hr : env.randRead st.rngUsed = some bs) :
    (env.writeOk st.writesTried = false →
      runLines env st (l :: ls) =
        ({ st with rngUsed := st.rngUsed + 1, writesTried := st.writesTried + 1 },
         some PErr.headerWrite)) ∧
    (env.writeOk st.writesTried = true → env.writeOk (st.writesTried + 1) = false →
      runLines env st (l :: ls) =
        ({ st with
           out := st.out ++ [headerLine (hexEncodeBytes bs) (extractTimestamp l)],
           rngUsed := st.rngUsed + 1, writesTried := st.writesTried + 2 },
         some PErr.requestWrite)) ∧
    (env.writeOk st.writesTried = true → env.writeOk (st.writesTried + 1) = true →
      env.writeOk (st.writesTried + 2) = false →
      runLines env st (l :: ls) =
        ({ st with
           out := st.out ++ [headerLine (hexEncodeBytes bs) (extractTimestamp l),
                   requestSeg (m ++ " " ++ p ++ " " ++ pr)],
           rngUsed := st.rngUsed + 1, writesTried := st.writesTried + 3 },
         some PErr.delimiterWrite)) := by
  refine ⟨fun hw1 => ?_, fun hw1 hw2 => ?_, fun hw1 hw2 hw3 => ?_⟩
  · rw [runLines_cons, processLine_header_fail env st l m p pr bs hne hp hfind hr hw1]
  · rw [runLines_cons, processLine_request_fail env st l m p pr bs hne hp hfind hr hw1 hw2]
  · rw [runLines_cons, processLine_delim_fail env st l m p pr bs hne hp hfind hr hw1 hw2 hw3]

/-- Witness for C5: with a failing output stream the very first write
aborts with the header error and remaining lines untouched. -/
theorem c5_write_failure_aborts_witness :
    runLines ⟨fun _ => true, fun _ => some (List.replicate 12 0), fun _ => false⟩
        initState [badTsLine, badTsLine] =
      ({ initState with
         rngUsed := initState.rngUsed + 1,
         writesTried := initState.writesTried + 1 },
       some PErr.headerWrite) :=
  (c5_write_failure_aborts
    ⟨fun _ => true, fun _ => some (List.replicate 12 0), fun _ => false⟩
    initState badTsLine [badTsLine] "GET" "/api" "HTTP/1.1" (List.replicate 12 0)
    (by decide) rfl (by decide) rfl).1 rfl

/-- C9: the returned count always equals the number of delimiter lines
among the successful writes — the counter moves only when a whole
three-segment record was written — and an empty input yields count zero
and an empty output. -/
theorem c9_count_equals_complete_records (env : Env) (lines : List String)
    (scanErr : Option String) :
    (processLogs env lines scanErr).count =
      ((processLogs env lines scanErr).out).countP (fun s => s == delimSeg) ∧
    processLogs env [] none = ⟨0, none, []⟩ := by
  constructor
  · unfold processLogs
    have h := runLines_delim_inv env lines initState (by rfl)
    rcases hr : runLines env initState lines with ⟨st, e⟩
    rw [hr] at h
    cases e <;> cases scanErr <;> simpa using h
  · rfl

/-- The end-to-end scenario line of the specification. -/
def c1Line : String :=
  "127.0.0.1 - - [01/Oct/2025:12:30:11 +0000] \"GET /api/v1/users HTTP/1.1\" 200 512 \"-\" \"curl/8.0\""

/-- C1: converting the single scenario line emits exactly one record:
a header carrying the decimal timestamp 1759321811000000000 (epoch
nanoseconds of 2025-10-01T12:30:11, the offset field ignored), the
request-line segment `GET /api/v1/users HTTP/1.1` followed by CR LF CR
LF LF, and the delimiter sentinel followed by a newline. -/
theorem c1_end_to_end (env : Env) (bs : List Nat)
    (hp : env.parserOk c1Line = true)
    (hr : env.randRead 0 = some bs)
    (hW : ∀ n, env.writeOk n = true) :
    processLogs env [c1Line] none =
      ⟨1, none,
       [headerLine (hexEncodeBytes bs) 1759321811000000000,
        "GET /api/v1/users HTTP/1.1" ++ "\r\n\r\n\n",
        gorPayloadDelimiter ++ "\n"]⟩ := by
  have hfind : findReqMatch c1Line.data = some ("GET", "/api/v1/users", "HTTP/1.1") := by
    decide
  have hts : extractTimestamp c1Line = 1759321811000000000 := by decide
  have hne : c1Line ≠ "" := by decide
  have hc := processLine_convert env initState c1Line "GET" "/api/v1/users" "HTTP/1.1" bs
    hne hp hfind hr (hW 0) (hW 1) (hW 2)
  rw [hts] at hc
  unfold processLogs
  rw [runLines_cons, hc]
  simp [runLines, initState, requestSeg, delimSeg]

/-- Witness for C1 with an all-zero random read. -/
theorem c1_end_to_end_witness :
    processLogs ⟨fun _ => true, fun _ => some (List.replicate 12 0), fun _ => true⟩
        [c1Line] none =
      ⟨1, none,
       [headerLine (hexEncodeBytes (List.replicate 12 0)) 1759321811000000000,
        "GET /api/v1/users HTTP/1.1" ++ "\r\n\r\n\n",
        gorPayloadDelimiter ++ "\n"]⟩ :=
  c1_end_to_end ⟨fun _ => true, fun _ => some (List.replicate 12 0), fun _ => true⟩
    (List.replicate 12 0) rfl rfl (fun _ => rfl)

/-- The three-segment record written for one converted line, from its
request identifier, request line and timestamp. -/
def mkRec (r : String × String × Int) : List String :=
  [headerLine r.1 r.2.2, requestSeg r.2.1, delimSeg]

/-- With writes succeeding, each line either leaves the state alone,
only consumes a random read, or appends exactly its three-segment
record and counts once. -/
lemma processLine_cases (env : Env) (st : PState) (l : String)
    (hW : ∀ n, env.writeOk n = true) :
    processLine env st l = (st, none) ∨
    processLine env st l = ({ st with rngUsed := st.rngUsed + 1 }, none) ∨
    ∃ bs m p pr, env.randRead st.rngUsed = some bs ∧
      findReqMatch l.data = some (m, p, pr) ∧
      processLine env st l =
        ({ st with
           count := st.count + 1,
           out := st.out ++
             mkRec (hexEncodeBytes bs, m ++ " " ++ p ++ " " ++ pr, extractTimestamp l),
           rngUsed := st.rngUsed + 1, writesTried := st.writesTried + 3 }, none) := by
  by_cases hne : l = ""
  · exact Or.inl (processLine_skip env st l (Or.inl hne))
  by_cases hp : env.parserOk l = true
  case neg => exact Or.inl (processLine_skip env st l (Or.inr (Or.inl (by simpa using hp))))
  rcases hfind : findReqMatch l.data with _ | ⟨m, p, pr⟩
  · exact Or.inl (processLine_skip env st l (Or.inr (Or.inr hfind)))
  rcases hr : env.randRead st.rngUsed with _ | bs
  · exact Or.inr (Or.inl (processLine_rng_fail env st l m p pr hne hp hfind hr))
  refine Or.inr (Or.inr ⟨bs, m, p, pr, rfl, rfl, ?_⟩)
  exact processLine_convert env st l m p pr bs hne hp hfind hr (hW _) (hW _) (hW _)

/-- With writes succeeding and well-formed random reads, a run of the
loop emits a flat sequence of three-segment records, one per counted
line, each with a 24-hex-character identifier and the request line and
timestamp extracted from one of the input lines. -/
lemma runLines_records (env : Env) (hW : ∀ n, env.writeOk n = true)
    (hRW : ∀ k bs, env.randRead k = some bs → bs.length = 12 ∧ ∀ b ∈ bs, b < 256) :
    ∀ (lines : List String) (st : PState),
      ∃ (recs : List (String × String × Int)) (st' : PState),
        runLines env st lines = (st', none) ∧
        st'.out = st.out ++ (recs.map mkRec).flatten ∧
        st'.count = st.count + recs.length ∧
        ∀ r ∈ recs, (r.1.length = 24 ∧ ∀ c ∈ r.1.data, c ∈ hexTable) ∧
          ∃ l ∈ lines, (∃ m p pr, findReqMatch l.data = some (m, p, pr) ∧
            r.2.1 = m ++ " " ++ p ++ " " ++ pr) ∧ r.2.2 = extractTimestamp l := by
  intro lines
  induction lines with
  | nil =>
    intro st
    exact ⟨[], st, rfl, by simp, by simp, by simp⟩
  | cons l ls ih =>
    intro st
    rcases processLine_cases env st l hW with hc | hc | ⟨bs, m, p, pr, hr, hfind, hc⟩
    · obtain ⟨recs, st', h1, h2, h3, h4⟩ := ih st
      refine ⟨recs, st', ?_, h2, h3, ?_⟩
      · rw [runLines_cons, hc]; exact h1
      · intro r hrr
        obtain ⟨hid, l', hl', hrest⟩ := h4 r hrr
        exact ⟨hid, l', List.mem_cons_of_mem _ hl', hrest⟩
    · obtain ⟨recs, st', h1, h2, h3, h4⟩ := ih { st with rngUsed := st.rngUsed + 1 }
      refine ⟨recs, st', ?_, by simpa using h2, by simpa using h3, ?_⟩
      · rw [runLines_cons, hc]; exact h1
      · intro r hrr
        obtain ⟨hid, l', hl', hrest⟩ := h4 r hrr
        exact ⟨hid, l', List.mem_cons_of_mem _ hl', hrest⟩
    · obtain ⟨recs, st', h1, h2, h3, h4⟩ := ih
        { st with
          count := st.count + 1,
          out := st.out ++
            mkRec (hexEncodeBytes bs, m ++ " " ++ p ++ " " ++ pr, extractTimestamp l),
          rngUsed := st.rngUsed + 1, writesTried := st.writesTried + 3 }
      refine ⟨(hexEncodeBytes bs, m ++ " " ++ p ++ " " ++ pr, extractTimestamp l) :: recs,
        st', ?_, ?_, ?_, ?_⟩
      · rw [runLines_cons, hc]; exact h1
      · rw [h2]; simp [List.append_assoc]
      · rw [h3]; simp; omega
      · intro r hrr
        rcases List.mem_cons.mp hrr with hhd | hrr
        · subst hhd
          obtain ⟨h12, h256⟩ := hRW _ bs hr
          refine ⟨⟨?_, hexBytesAux_mem h256⟩,
            l, List.mem_cons_self l ls, ⟨m, p, pr, hfind, rfl⟩, rfl⟩
          show (hexBytesAux bs).length = 24
          rw [hexBytesAux_length, h12]
        · obtain ⟨hid, l', hl', hrest⟩ := h4 r hrr
          exact ⟨hid, l', List.mem_cons_of_mem _ hl', hrest⟩

/-- C2: in a run with no write failure and well-formed random reads,
the output is exactly a flat sequence of three-segment records — the
header `1 <requestID> <timestampNanos> 0` plus newline with a
24-lowercase-hex identifier, the extracted request line
`METHOD PATH PROTOCOL` followed by CR LF CR LF LF, and the delimiter
sentinel plus newline — one record per counted line. -/
theorem c2_record_framing (env : Env) (lines : List String) (scanErr : Option String)
    (hW : ∀ n, env.writeOk n = true)
    (hRW : ∀ k bs, env.randRead k = some bs → bs.length = 12 ∧ ∀ b ∈ bs, b < 256) :
    ∃ recs : List (String × String × Int),
      (processLogs env lines scanErr).out = (recs.map mkRec).flatten ∧
      (processLogs env lines scanErr).count = recs.length ∧
      ∀ r ∈ recs, (r.1.length = 24 ∧ ∀ c ∈ r.1.data, c ∈ hexTable) ∧
        ∃ l ∈ lines, (∃ m p pr, findReqMatch l.data = some (m, p, pr) ∧
          r.2.1 = m ++ " " ++ p ++ " " ++ pr) ∧ r.2.2 = extractTimestamp l := by
  obtain ⟨recs, st', h1, h2, h3, h4⟩ := runLines_records env hW hRW lines initState
  refine ⟨recs, ?_, ?_, h4⟩
  · unfold processLogs
    rw [h1]
    cases scanErr <;> simpa [initState] using h2
  · unfold processLogs
    rw [h1]
    cases scanErr <;> simpa [initState] using h3

/-- Witness for C2 on the scenario line. -/
theorem c2_record_framing_witness :
    ∃ recs : List (String × String × Int),
      (processLogs ⟨fun _ => true, fun _ => some (List.replicate 12 0), fun _ => true⟩
          [c1Line] none).out = (recs.map mkRec).flatten ∧
      (processLogs ⟨fun _ => true, fun _ => some (List.replicate 12 0), fun _ => true⟩
          [c1Line] none).count = recs.length ∧
      ∀ r ∈ recs, (r.1.length = 24 ∧ ∀ c ∈ r.1.data, c ∈ hexTable) ∧
        ∃ l ∈ [c1Line], (∃ m p pr, findReqMatch l.data = some (m, p, pr) ∧
          r.2.1 = m ++ " " ++ p ++ " " ++ pr) ∧ r.2.2 = extractTimestamp l :=
  c2_record_framing ⟨fun _ => true, fun _ => some (List.replicate 12 0), fun _ => true⟩
    [c1Line] none (fun _ => rfl)
    (fun _ bs h => by cases h; exact ⟨by decide, by decide⟩)

/-- Two runs of the loop over the same lines, the same parser
predicate and the same (always succeeding) write schedule, differing
only in their (always succeeding) random sources, convert the same
lines: their record sequences agree on request line and timestamp
position by position, and so do their counts. -/
lemma runLines_pair (p : String → Bool) (r1 r2 : Nat → Option (List Nat)) (w : Nat → Bool)
    (hW : ∀ n, w n = true)
    (h1 : ∀ k, (r1 k).isSome = true) (h2 : ∀ k, (r2 k).isSome = true) :
    ∀ (lines : List String) (st1 st2 : PState),
      ∃ (recs1 recs2 : List (String × String × Int)) (st1' st2' : PState),
        runLines ⟨p, r1, w⟩ st1 lines = (st1', none) ∧
        runLines ⟨p, r2, w⟩ st2 lines = (st2', none) ∧
        st1'.out = st1.out ++ (recs1.map mkRec).flatten ∧
        st2'.out = st2.out ++ (recs2.map mkRec).flatten ∧
        st1'.count = st1.count + recs1.length ∧
        st2'.count = st2.count + recs2.length ∧
        recs1.map (fun r => (r.2.1, r.2.2)) = recs2.map (fun r => (r.2.1, r.2.2)) := by
  intro lines
  induction lines with
  | nil =>
    intro st1 st2
    exact ⟨[], [], st1, st2, rfl, rfl, by simp, by simp, by simp, by simp, rfl⟩
  | cons l ls ih =>
    intro st1 st2
    by_cases hskip : l = "" ∨ p l = false ∨ findReqMatch l.data = none
    · obtain ⟨recs1, recs2, st1', st2', g1, g2, g3, g4, g5, g6, g7⟩ := ih st1 st2
      refine ⟨recs1, recs2, st1', st2', ?_, ?_, g3, g4, g5, g6, g7⟩
      · rw [runLines_cons, processLine_skip ⟨p, r1, w⟩ st1 l hskip]; exact g1
      · rw [runLines_cons, processLine_skip ⟨p, r2, w⟩ st2 l hskip]; exact g2
    · push_neg at hskip
      obtain ⟨hne, hp, hfind⟩ := hskip
      have hp' : p l = true := by
        cases hb : p l with
        | false => exact absurd hb hp
        | true => rfl
      rcases hfm : findReqMatch l.data with _ | ⟨m, pa, pr⟩
      · exact absurd hfm hfind
      rcases hb1 : r1 st1.rngUsed with _ | bs1
      · exact absurd (h1 st1.rngUsed) (by simp [hb1])
      rcases hb2 : r2 st2.rngUsed with _ | bs2
      · exact absurd (h2 st2.rngUsed) (by simp [hb2])
      obtain ⟨recs1, recs2, st1', st2', g1, g2, g3, g4, g5, g6, g7⟩ := ih
        { st1 with
          count := st1.count + 1,
          out := st1.out ++
            mkRec (hexEncodeBytes bs1, m ++ " " ++ pa ++ " " ++ pr, extractTimestamp l),
          rngUsed := st1.rngUsed + 1, writesTried := st1.writesTried + 3 }
        { st2 with
          count := st2.count + 1,
          out := st2.out ++
            mkRec (hexEncodeBytes bs2, m ++ " " ++ pa ++ " " ++ pr, extractTimestamp l),
          rngUsed := st2.rngUsed + 1, writesTried := st2.writesTried + 3 }
      refine ⟨(hexEncodeBytes bs1, m ++ " " ++ pa ++ " " ++ pr, extractTimestamp l) :: recs1,
        (hexEncodeBytes bs2, m ++ " " ++ pa ++ " " ++ pr, extractTimestamp l) :: recs2,
        st1', st2', ?_, ?_, ?_, ?_, ?_, ?_, ?_⟩
      · rw [runLines_cons,
          processLine_convert ⟨p, r1, w⟩ st1 l m pa pr bs1 hne hp' hfm hb1 (hW _) (hW _) (hW _)]
        exact g1
      · rw [runLines_cons,
          processLine_convert ⟨p, r2, w⟩ st2 l m pa pr bs2 hne hp' hfm hb2 (hW _) (hW _) (hW _)]
        exact g2
      · rw [g3]; simp [List.append_assoc]
      · rw [g4]; simp [List.append_assoc]
      · rw [g5]; simp; omega
      · rw [g6]; simp; omega
      · simp only [List.map_cons, g7]

/-- C8: conversion is deterministic in everything except the random
identifiers — two runs over the same lines with the random source as
the only varying capability return equal counts and record sequences
whose request lines and timestamps agree record by record. -/
theorem c8_deterministic_up_to_ids (p : String → Bool) (r1 r2 : Nat → Option (List Nat))
    (w : Nat → Bool) (lines : List String) (scanErr : Option String)
    (hW : ∀ n, w n = true)
    (h1 : ∀ k, (r1 k).isSome = true) (h2 : ∀ k, (r2 k).isSome = true) :
    (processLogs ⟨p, r1, w⟩ lines scanErr).count =
      (processLogs ⟨p, r2, w⟩ lines scanErr).count ∧
    ∃ recs1 recs2 : List (String × String × Int),
      (processLogs ⟨p, r1, w⟩ lines scanErr).out = (recs1.map mkRec).flatten ∧
      (processLogs ⟨p, r2, w⟩ lines scanErr).out = (recs2.map mkRec).flatten ∧
      recs1.map (fun r => (r.2.1, r.2.2)) = recs2.map (fun r => (r.2.1, r.2.2)) := by
  obtain ⟨recs1, recs2, st1', st2', g1, g2, g3, g4, g5, g6, g7⟩ :=
    runLines_pair p r1 r2 w hW h1 h2 lines initState initState
  have hlen : recs1.length = recs2.length := by
    have := congrArg List.length g7
    simpa using this
  constructor
  · unfold processLogs
    rw [g1, g2]
    cases scanErr <;> simp [g5, g6, initState, hlen]
  · refine ⟨recs1, recs2, ?_, ?_, g7⟩
    · unfold processLogs
      rw [g1]
      cases scanErr <;> simpa [initState] using g3
    · unfold processLogs
      rw [g2]
      cases scanErr <;> simpa [initState] using g4

/-- Witness for C8 with an all-zeros and an all-ones random source. -/
theorem c8_deterministic_up_to_ids_witness :
    (processLogs ⟨fun _ => true, fun _ => some (List.replicate 12 0), fun _ => true⟩
        [c1Line] none).count =
      (processLogs ⟨fun _ => true, fun _ => some (List.replicate 12 1), fun _ => true⟩
        [c1Line] none).count ∧
    ∃ recs1 recs2 : List (String × String × Int),
      (processLogs ⟨fun _ => true, fun _ => some (List.replicate 12 0), fun _ => true⟩
          [c1Line] none).out = (recs1.map mkRec).flatten ∧
      (processLogs ⟨fun _ => true, fun _ => some (List.replicate 12 1), fun _ => true⟩
          [c1Line] none).out = (recs2.map mkRec).flatten ∧
      recs1.map (fun r => (r.2.1, r.2.2)) = recs2.map (fun r => (r.2.1, r.2.2)) :=
  c8_deterministic_up_to_ids (fun _ => true)
    (fun _ => some (List.replicate 12 0)) (fun _ => some (List.replicate 12 1))
    (fun _ => true) [c1Line] none (fun _ => rfl) (fun _ => rfl) (fun _ => rfl)

/-! ## Characterisation of the request-line regex -/

lemma leadsWith_iff (ps : List Char) :
    ∀ cs, leadsWith ps cs = true ↔ ∃ t, cs = ps ++ t := by
  induction ps with
  | nil => intro cs; simp [leadsWith]
  | cons a ps ih =>
    intro cs
    cases cs with
    | nil => simp [leadsWith]
    | cons c cs =>
      simp only [leadsWith, Bool.and_eq_true, beq_iff_eq, List.cons_append]
      constructor
      · rintro ⟨rfl, h⟩
        obtain ⟨t, rfl⟩ := (ih cs).mp h
        exact ⟨t, rfl⟩
      · rintro ⟨t, ht⟩
        injection ht with h1 h2
        subst h1
        exact ⟨rfl, (ih cs).mpr ⟨t, h2⟩⟩

lemma dropWhile_head_false (q : Char → Bool) :
    ∀ (l : List Char) (c : Char) (t : List Char),
      l.dropWhile q = c :: t → q c = false := by
  intro l
  induction l with
  | nil => intro c t h; simp [List.dropWhile] at h
  | cons a l ih =>
    intro c t h
    rw [List.dropWhile_cons] at h
    by_cases hq : q a = true
    · rw [if_pos hq] at h
      exact ih c t h
    · rw [if_neg hq] at h
      injection h with h1 h2
      subst h1
      simpa using hq

/-- A successful anchored match of the request-line regex decomposes
its input: an opening quote, the method, a space, the nonempty
space-free path whose following character is a space (so the path is
the maximal non-space run), a space, the nonempty quote-free protocol
(which may contain spaces), and the closing quote. -/
lemma matchReqAt_some {cs : List Char} {m p pr : String}
    (h : matchReqAt cs = some (m, p, pr)) :
    m ∈ httpMethods ∧ p.data ≠ [] ∧ pr.data ≠ [] ∧
    (∀ c ∈ p.data, ¬c = ' ') ∧ (∀ c ∈ pr.data, ¬c = '"') ∧
    ∃ t, cs = '"' :: (m.data ++ ' ' :: (p.data ++ ' ' :: (pr.data ++ '"' :: t))) := by
  cases cs with
  | nil => simp [matchReqAt] at h
  | cons c r0 =>
    rw [show matchReqAt (c :: r0) =
      (if c = '"' then
        match httpMethods.find? (fun m => leadsWith (m.data ++ [' ']) r0) with
        | none => none
        | some m =>
          let r1 := r0.drop (m.data.length + 1)
          let p := r1.takeWhile (fun d => d != ' ')
          match r1.dropWhile (fun d => d != ' ') with
          | [] => none
          | sp :: r3 =>
            if p = [] ∨ sp ≠ ' ' then none
            else
              let pr := r3.takeWhile (fun d => d != '"')
              match r3.dropWhile (fun d => d != '"') with
              | [] => none
              | q :: _ =>
                if pr = [] ∨ q ≠ '"' then none
                else some (m, ⟨p⟩, ⟨pr⟩)
      else none) from rfl] at h
    by_cases hc : c = '"'
    case neg => rw [if_neg hc] at h; exact absurd h (by simp)
    rw [if_pos hc] at h
    subst hc
    rcases hf : httpMethods.find? (fun m0 => leadsWith (m0.data ++ [' ']) r0) with _ | m0
    · rw [hf] at h; exact absurd h (by simp)
    rw [hf] at h
    have hmem : m0 ∈ httpMethods := List.mem_of_find?_eq_some hf
    have hlw : leadsWith (m0.data ++ [' ']) r0 = true := by
      have := List.find?_some hf
      simpa using this
    obtain ⟨t0, ht0⟩ := (leadsWith_iff _ r0).mp hlw
    have hr1 : r0.drop (m0.data.length + 1) = t0 := by
      rw [ht0, show m0.data.length + 1 = (m0.data ++ [' ']).length by simp, List.drop_left]
    simp only [hr1] at h
    rcases hdw : t0.dropWhile (fun d => d != ' ') with _ | ⟨sp, r3⟩
    · rw [hdw] at h; exact absurd h (by simp)
    rw [hdw] at h
    replace h : (if t0.takeWhile (fun d => d != ' ') = [] ∨ sp ≠ ' ' then none
        else
          match r3.dropWhile (fun d => d != '"') with
          | [] => none
          | q :: _ =>
            if r3.takeWhile (fun d => d != '"') = [] ∨ q ≠ '"' then none
            else some (m0, (⟨t0.takeWhile (fun d => d != ' ')⟩ : String),
              (⟨r3.takeWhile (fun d => d != '"')⟩ : String))) =
        some (m, p, pr) := h
    by_cases hcond : t0.takeWhile (fun d => d != ' ') = [] ∨ sp ≠ ' '
    · rw [if_pos hcond] at h; exact absurd h (by simp)
    rw [if_neg hcond] at h
    push_neg at hcond
    obtain ⟨hpne, hsp⟩ := hcond
    rcases hdw2 : r3.dropWhile (fun d => d != '"') with _ | ⟨q, r4⟩
    · rw [hdw2] at h; exact absurd h (by simp)
    rw [hdw2] at h
    replace h : (if r3.takeWhile (fun d => d != '"') = [] ∨ q ≠ '"' then none
        else some (m0, (⟨t0.takeWhile (fun d => d != ' ')⟩ : String),
          (⟨r3.takeWhile (fun d => d != '"')⟩ : String))) =
        some (m, p, pr) := h
    by_cases hcond2 : r3.takeWhile (fun d => d != '"') = [] ∨ q ≠ '"'
    · rw [if_pos hcond2] at h; exact absurd h (by simp)
    rw [if_neg hcond2] at h
    push_neg at hcond2
    obtain ⟨hprne, hq⟩ := hcond2
    have h' : (m0, (⟨t0.takeWhile (fun d => d != ' ')⟩ : String),
        (⟨r3.takeWhile (fun d => d != '"')⟩ : String)) = (m, p, pr) := by
      injection h
    obtain ⟨h1, h2, h3⟩ : m0 = m ∧
        (⟨t0.takeWhile (fun d => d != ' ')⟩ : String) = p ∧
        (⟨r3.takeWhile (fun d => d != '"')⟩ : String) = pr := by
      simpa [Prod.ext_iff] using h'
    subst h1
    subst h2
    subst h3
    have e1 := List.takeWhile_append_dropWhile (fun d => d != ' ') t0
    rw [hdw] at e1
    have e2 := List.takeWhile_append_dropWhile (fun d => d != '"') r3
    rw [hdw2] at e2
    subst hsp
    subst hq
    refine ⟨hmem, hpne, hprne, ?_, ?_, r4, ?_⟩
    · intro c hcmem
      have := List.mem_takeWhile_imp hcmem
      simpa using this
    · intro c hcmem
      have := List.mem_takeWhile_imp hcmem
      simpa using this
    · rw [ht0]
      conv_lhs => rw [← e1]
      conv_lhs => rw [← e2]
      simp [List.append_assoc]

/-- `findReqMatch` returns the leftmost match: its result is the
anchored match at some position before which every anchored attempt
fails. -/
lemma findReqMatch_first {l : List Char} {r : String × String × String}
    (h : findReqMatch l = some r) :
    ∃ n, (∀ j, j < n → matchReqAt (l.drop j) = none) ∧
      matchReqAt (l.drop n) = some r := by
  induction l with
  | nil => simp [findReqMatch] at h
  | cons c rest ih =>
    rw [show findReqMatch (c :: rest) =
      (match matchReqAt (c :: rest) with
       | some r => some r
       | none => findReqMatch rest) from rfl] at h
    rcases hm : matchReqAt (c :: rest) with _ | r0
    · rw [hm] at h
      replace h : findReqMatch rest = some r := h
      obtain ⟨n, hnone, hsome⟩ := ih h
      refine ⟨n + 1, ?_, by simpa using hsome⟩
      intro j hj
      cases j with
      | zero => simpa using hm
      | succ j' => simpa using hnone j' (by omega)
    · rw [hm] at h
      replace h : some r0 = some r := h
      injection h with h'
      subst h'
      exact ⟨0, fun j hj => absurd hj (by omega), by simpa using hm⟩

/-- C10: in a successful request-line extraction the path is the
maximal run of non-space characters (nonempty, space-free, and
followed by a space), the protocol runs from the following space to
the next double quote (nonempty, quote-free, possibly containing
spaces, and followed by a quote), the match used is the leftmost one,
and the text between the two quotes of that match is exactly
`METHOD PATH PROTOCOL`; on the example line the quoted field
`"GET /a b c HTTP/1.1"` yields path `/a` and protocol
`b c HTTP/1.1`. -/
theorem c10_path_protocol_semantics :
    (∀ (l : List Char) (m p pr : String),
      findReqMatch l = some (m, p, pr) →
      ∃ n t, (∀ j, j < n → matchReqAt (l.drop j) = none) ∧
        l = l.take n ++
          '"' :: (m.data ++ ' ' :: (p.data ++ ' ' :: (pr.data ++ '"' :: t))) ∧
        m ∈ httpMethods ∧ p.data ≠ [] ∧ pr.data ≠ [] ∧
        (∀ c ∈ p.data, ¬c = ' ') ∧ (∀ c ∈ pr.data, ¬c = '"')) ∧
    findReqMatch ("x \"GET /a b c HTTP/1.1\" y".data) =
      some ("GET", "/a", "b c HTTP/1.1") := by
  constructor
  · intro l m p pr h
    obtain ⟨n, hnone, hsome⟩ := findReqMatch_first h
    obtain ⟨hmem, hpne, hprne, hpel, hprel, t, hdec⟩ := matchReqAt_some hsome
    refine ⟨n, t, hnone, ?_, hmem, hpne, hprne, hpel, hprel⟩
    conv_lhs => rw [← List.take_append_drop n l]
    rw [hdec]
  · decide

/-- Witness for C10 at the example line. -/
theorem c10_path_protocol_semantics_witness :
    ∃ n t,
      (∀ j, j < n → matchReqAt (("x \"GET /a b c HTTP/1.1\" y".data).drop j) = none) ∧
      "x \"GET /a b c HTTP/1.1\" y".data =
        ("x \"GET /a b c HTTP/1.1\" y".data).take n ++
          '"' :: ("GET".data ++ ' ' ::
            ("/a".data ++ ' ' :: ("b c HTTP/1.1".data ++ '"' :: t))) ∧
      "GET" ∈ httpMethods ∧ "/a".data ≠ [] ∧ "b c HTTP/1.1".data ≠ [] ∧
      (∀ c ∈ "/a".data, ¬c = ' ') ∧ (∀ c ∈ "b c HTTP/1.1".data, ¬c = '"') :=
  c10_path_protocol_semantics.1 ("x \"GET /a b c HTTP/1.1\" y".data)
    "GET" "/a" "b c HTTP/1.1" (by decide)

end LogToGor
